import Mathlib

/-!
Verification of the `hello_world` remote-node client
(`src/hello_world/hello_world.py`) against its specification.

The development shallowly embeds the program:

* JSON values (`Json`) as produced by `json.loads` / consumed by `json.dumps`,
  with a renderer mirroring `json.dumps` (default separators `", "` / `": "`)
  and a recursive-descent text parser following the `json.loads` grammar
  (strict strings, no leading zeros, the `NaN`/`Infinity` constants).
  Integer literals are exact; non-integer numeric literals are recorded as
  raw tokens, their floating-point semantics being out of scope.
* the registration cycle `register_loop` body (one HTTP attempt plus the
  guarded `ws_info.update(data)`) as `registerCycle` over an association-list
  model of the Python dict `ws_info`;
* the per-message processing of `websocket_loop` (lines 54-71) as
  `handleFrame` / `recvStep`, with the outcome distinguishing "continue
  silently", "send a frame" and "an uncaught exception escapes to the outer
  handler" (which drops the connection);
* the outer session loop of `websocket_loop` as the step function
  `sessionStep` over a small phase/event machine.

Python-specific semantics (truthiness, `str()` coercion, `str.strip`,
`str.upper`, `dict.get`, `dict.update`) are modelled by the `py`-prefixed
definitions.  `str.strip`/`str.upper` are modelled on ASCII data, matching
every string the program itself constructs.
-/

/-- A JSON value, as produced by `json.loads`.  Objects keep their members in
textual order; `json.loads` yields objects with pairwise distinct keys.
Integer literals are represented exactly (`num`, a Python `int`).  A numeric
literal that is not a decimal integer — a float literal, or the `NaN`,
`Infinity`, `-Infinity` extensions `json.loads` accepts — is recorded as its
raw token (`numRaw`): its floating-point value is out of the model's scope,
and no theorem in this file interprets it (the program itself never reads a
numeric field; a `numRaw` payload only ever reaches the catch-all branches,
where any non-dict behaves alike). -/
inductive Json where
  | null
  | bool (b : Bool)
  | num (n : Int)
  | numRaw (lit : String)
  | str (s : String)
  | arr (items : List Json)
  | obj (members : List (String × Json))

/-! ### Association-list model of Python dicts -/

/-- Lookup in an association list, first binding wins (Python dicts hold at
most one binding per key, so this is exact on dict-shaped lists). -/
def dictGet (m : List (String × Json)) (k : String) : Option Json :=
  match m with
  | [] => none
  | (k0, v0) :: rest => if k0 = k then some v0 else dictGet rest k

/-- Python `k in d` for a dict. -/
def dictHas (m : List (String × Json)) (k : String) : Bool :=
  match m with
  | [] => false
  | (k0, _) :: rest => if k0 = k then true else dictHas rest k

/-- Python `d[k] = v`: replace the existing binding in place, or append. -/
def dictPut (m : List (String × Json)) (k : String) (v : Json) :
    List (String × Json) :=
  match m with
  | [] => [(k, v)]
  | (k0, v0) :: rest =>
      if k0 = k then (k, v) :: rest else (k0, v0) :: dictPut rest k v

/-- Python `d.update(other)`: bind each of `other`'s pairs in order. -/
def dictUpdate (m : List (String × Json)) (kvs : List (String × Json)) :
    List (String × Json) :=
  kvs.foldl (fun acc kv => dictPut acc kv.fst kv.snd) m

/-! ### JSON text: renderer (model of `json.dumps`) -/

/-- Hexadecimal digit character for `n < 16` (lower case, as `json.dumps`). -/
def hexDigit (n : Nat) : Char :=
  if n < 10 then Char.ofNat (48 + n) else Char.ofNat (87 + n)

/-- Escape one character of a JSON string, following `json.dumps`: the quote,
the backslash and control characters are escaped (short forms where Python has
them, `\u00XX` otherwise); everything else is emitted verbatim.  The default
`ensure_ascii` escaping of non-ASCII characters as `\uXXXX` (with surrogate
pairs beyond the basic plane) is omitted: the frame is emitted as UTF-8 text
either way, and the round-trip property is unaffected. -/
def escChar (c : Char) : List Char :=
  if c = '"' then ['\\', '"']
  else if c = '\\' then ['\\', '\\']
  else if c = '\n' then ['\\', 'n']
  else if c = '\r' then ['\\', 'r']
  else if c = '\t' then ['\\', 't']
  else if c = '\x08' then ['\\', 'b']
  else if c = '\x0c' then ['\\', 'f']
  else if c.toNat < 32 then
    ['\\', 'u', '0', '0', hexDigit (c.toNat / 16), hexDigit (c.toNat % 16)]
  else [c]

/-- Escape a whole character list. -/
def escList : List Char → List Char
  | [] => []
  | c :: cs => escChar c ++ escList cs

/-- Render a string literal: opening quote, escaped body, closing quote. -/
def renderStrL (s : String) : List Char :=
  '"' :: (escList s.data ++ ['"'])

mutual

/-- Render a JSON value to characters, as `json.dumps` does with its default
separators (`", "` between items and members, `": "` after a key). -/
def renderL : Json → List Char
  | Json.null => ['n', 'u', 'l', 'l']
  | Json.bool true => ['t', 'r', 'u', 'e']
  | Json.bool false => ['f', 'a', 'l', 's', 'e']
  | Json.num n => (toString n).data
  | Json.numRaw lit => lit.data
  | Json.str s => renderStrL s
  | Json.arr items => '[' :: (renderItems items ++ [']'])
  | Json.obj members => '{' :: (renderPairs members ++ ['}'])

/-- Render array items, `", "`-separated. -/
def renderItems : List Json → List Char
  | [] => []
  | v :: rest => renderL v ++ sepItems rest

/-- Render the `", "`-prefixed continuation of an item list. -/
def sepItems : List Json → List Char
  | [] => []
  | v :: rest => ',' :: ' ' :: (renderL v ++ sepItems rest)

/-- Render object members, `", "`-separated, each as `"key": value`. -/
def renderPairs : List (String × Json) → List Char
  | [] => []
  | (k, v) :: rest => renderStrL k ++ ':' :: ' ' :: (renderL v ++ sepPairs rest)

/-- Render the `", "`-prefixed continuation of a member list. -/
def sepPairs : List (String × Json) → List Char
  | [] => []
  | (k, v) :: rest =>
      ',' :: ' ' :: (renderStrL k ++ ':' :: ' ' :: (renderL v ++ sepPairs rest))

end

/-! ### JSON text: parser (model of `json.loads`) -/

/-- JSON whitespace. -/
def isWs (c : Char) : Bool := c = ' ' || c = '\t' || c = '\n' || c = '\r'

/-- Drop leading JSON whitespace. -/
def skipWs : List Char → List Char
  | [] => []
  | c :: cs => if isWs c then skipWs cs else c :: cs

/-- Value of a hexadecimal digit character. -/
def hexVal (c : Char) : Option Nat :=
  if '0' ≤ c ∧ c ≤ '9' then some (c.toNat - 48)
  else if 'a' ≤ c ∧ c ≤ 'f' then some (c.toNat - 87)
  else if 'A' ≤ c ∧ c ≤ 'F' then some (c.toNat - 55)
  else none

/-- Combine four hexadecimal digits into a code point. -/
def hex4 (a b c d : Char) : Option Nat := do
  let va ← hexVal a
  let vb ← hexVal b
  let vc ← hexVal c
  let vd ← hexVal d
  pure (((va * 16 + vb) * 16 + vc) * 16 + vd)

/-- Decode a single-character escape. -/
def unesc (e : Char) : Option Char :=
  if e = '"' then some '"'
  else if e = '\\' then some '\\'
  else if e = '/' then some '/'
  else if e = 'n' then some '\n'
  else if e = 't' then some '\t'
  else if e = 'r' then some '\r'
  else if e = 'b' then some '\x08'
  else if e = 'f' then some '\x0c'
  else none

/-- Parse the body of a string literal (after the opening quote), returning
the decoded characters and the remaining input.  As `json.loads` in its
default strict mode, a raw control character (below `0x20`) inside the
literal is rejected. -/
def parseStrBody : List Char → Option (List Char × List Char)
  | [] => none
  | c :: rest =>
      if c = '"' then some ([], rest)
      else if c = '\\' then
        match rest with
        | [] => none
        | e :: rest2 =>
            if e = 'u' then
              match rest2 with
              | a :: b :: c2 :: d :: rest3 =>
                  match hex4 a b c2 d with
                  | some n =>
                      (parseStrBody rest3).map
                        (fun p => (Char.ofNat n :: p.1, p.2))
                  | none => none
              | _ => none
            else
              match unesc e with
              | some ch =>
                  (parseStrBody rest2).map (fun p => (ch :: p.1, p.2))
              | none => none
      else if c.toNat < 32 then none
      else (parseStrBody rest).map (fun p => (c :: p.1, p.2))

/-- Take a maximal run of decimal digits. -/
def takeDigits : List Char → List Char × List Char
  | [] => ([], [])
  | c :: cs =>
      if c.isDigit then
        let p := takeDigits cs
        (c :: p.1, p.2)
      else ([], c :: cs)

/-- Numeric value of a digit run. -/
def digitsToNat (ds : List Char) : Nat :=
  ds.foldl (fun acc c => acc * 10 + (c.toNat - 48)) 0

/-- The integer part of a JSON number: a single `0`, or a nonzero digit
followed by more digits (the grammar's no-leading-zero rule, as the
`json.loads` number regular expression). -/
def parseIntPart : List Char → Option (List Char × List Char)
  | [] => none
  | c :: rest =>
      if c = '0' then some (['0'], rest)
      else if c.isDigit then
        let p := takeDigits rest
        some (c :: p.1, p.2)
      else none

/-- The optional fraction part `.digits` of a JSON number; when the dot is
not followed by a digit, nothing is consumed (the number ends before the
dot, as with the `json.loads` regular expression). -/
def parseFracPart : List Char → List Char × List Char
  | '.' :: c :: rest =>
      if c.isDigit then
        let p := takeDigits rest
        ('.' :: c :: p.1, p.2)
      else ([], '.' :: c :: rest)
  | cs => ([], cs)

/-- The optional exponent part `e[+-]digits` of a JSON number; when no digit
follows, nothing is consumed. -/
def parseExpPart : List Char → List Char × List Char
  | e :: rest =>
      if e = 'e' ∨ e = 'E' then
        match rest with
        | [] => ([], [e])
        | s :: rest2 =>
            if s = '+' ∨ s = '-' then
              match rest2 with
              | [] => ([], e :: s :: [])
              | d :: rest3 =>
                  if d.isDigit then
                    let p := takeDigits rest3
                    (e :: s :: d :: p.1, p.2)
                  else ([], e :: s :: d :: rest3)
            else if s.isDigit then
              let p := takeDigits rest2
              (e :: s :: p.1, p.2)
            else ([], e :: s :: rest2)
      else ([], e :: rest)
  | [] => ([], [])

/-- Parse a numeric token as `json.loads` does: an optional minus sign, then
either the `Infinity` extension or integer/fraction/exponent parts.  A plain
integer token becomes a Python `int` (`Json.num`); a token with a fraction
or exponent, and the `Infinity` constants, become Python floats, recorded as
their raw token (`Json.numRaw`). -/
def parseNumber (cs : List Char) : Option (Json × List Char) :=
  let sign : Bool × List Char :=
    match cs with
    | '-' :: rest => (true, rest)
    | _ => (false, cs)
  match sign.2 with
  | 'I' :: 'n' :: 'f' :: 'i' :: 'n' :: 'i' :: 't' :: 'y' :: rest =>
      some (Json.numRaw (if sign.1 then "-Infinity" else "Infinity"), rest)
  | cs1 =>
      match parseIntPart cs1 with
      | none => none
      | some (ip, cs2) =>
          let fr := parseFracPart cs2
          let ex := parseExpPart fr.2
          if fr.1 = [] ∧ ex.1 = [] then
            some (Json.num (if sign.1 then -(digitsToNat ip : Int)
                            else (digitsToNat ip : Int)), cs2)
          else
            some (Json.numRaw
              (String.mk ((if sign.1 then ['-'] else []) ++ ip ++ fr.1 ++ ex.1)),
              ex.2)

mutual

/-- Parse one JSON value (leading whitespace allowed), by fuel-bounded
recursive descent. -/
def parseValue : Nat → List Char → Option (Json × List Char)
  | 0, _ => none
  | fuel + 1, cs =>
      match skipWs cs with
      | 'n' :: 'u' :: 'l' :: 'l' :: r => some (Json.null, r)
      | 't' :: 'r' :: 'u' :: 'e' :: r => some (Json.bool true, r)
      | 'f' :: 'a' :: 'l' :: 's' :: 'e' :: r => some (Json.bool false, r)
      | '"' :: r =>
          (parseStrBody r).map (fun p => (Json.str (String.mk p.1), p.2))
      | '[' :: r =>
          match skipWs r with
          | ']' :: r2 => some (Json.arr [], r2)
          | r2 => (parseItems fuel r2).map (fun p => (Json.arr p.1, p.2))
      | '{' :: r =>
          match skipWs r with
          | '}' :: r2 => some (Json.obj [], r2)
          | r2 => (parsePairs fuel r2).map (fun p => (Json.obj p.1, p.2))
      | c :: r =>
          if c = '-' ∨ c.isDigit then parseNumber (c :: r)
          else if c = 'N' then
            match r with
            | 'a' :: 'N' :: r2 => some (Json.numRaw "NaN", r2)
            | _ => none
          else if c = 'I' then
            match r with
            | 'n' :: 'f' :: 'i' :: 'n' :: 'i' :: 't' :: 'y' :: r2 =>
                some (Json.numRaw "Infinity", r2)
            | _ => none
          else none
      | [] => none

/-- Parse one-or-more comma-separated array items up to the closing `]`. -/
def parseItems : Nat → List Char → Option (List Json × List Char)
  | 0, _ => none
  | fuel + 1, cs =>
      match parseValue fuel cs with
      | none => none
      | some (v, r) =>
          match skipWs r with
          | ',' :: r2 => (parseItems fuel r2).map (fun p => (v :: p.1, p.2))
          | ']' :: r2 => some ([v], r2)
          | _ => none

/-- Parse one-or-more comma-separated object members up to the closing brace. -/
def parsePairs : Nat → List Char → Option (List (String × Json) × List Char)
  | 0, _ => none
  | fuel + 1, cs =>
      match skipWs cs with
      | '"' :: r =>
          match parseStrBody r with
          | none => none
          | some (kcs, r1) =>
              match skipWs r1 with
              | ':' :: r2 =>
                  match parseValue fuel r2 with
                  | none => none
                  | some (v, r3) =>
                      match skipWs r3 with
                      | ',' :: r4 =>
                          (parsePairs fuel r4).map
                            (fun p => ((String.mk kcs, v) :: p.1, p.2))
                      | '}' :: r4 => some ([(String.mk kcs, v)], r4)
                      | _ => none
              | _ => none
      | _ => none

end

/-- Parse a complete JSON document (model of `json.loads`): one value, then
only trailing whitespace. -/
def Json.parse (s : String) : Option Json :=
  match parseValue (s.length + 1) s.data with
  | some (v, r) => if skipWs r = [] then some v else none
  | none => none

/-! ### Python semantics helpers -/

/-- Whether a recorded numeric token denotes the float `0.0` (falsy): a
decimal token is zero exactly when every digit of its mantissa (before any
exponent) is `0`; `NaN` and the infinities are nonzero.  Gradual underflow
(a nonzero token so small it rounds to `0.0`, such as `1e-400`) is outside
the model's floating-point scope. -/
def floatTokenZero (lit : String) : Bool :=
  if lit = "NaN" ∨ lit = "Infinity" ∨ lit = "-Infinity" then false
  else (lit.data.takeWhile (fun c => !(c = 'e' || c = 'E'))).all
    (fun c => !c.isDigit || c = '0')

/-- Python truthiness of a JSON-loadable value: `None`, `False`, `0` (also
the float `0.0`), the empty string, the empty list and the empty dict are
falsy, everything else truthy. -/
def pyTruthy : Json → Bool
  | Json.null => false
  | Json.bool b => b
  | Json.num n => decide (n ≠ 0)
  | Json.numRaw lit => !floatTokenZero lit
  | Json.str s => decide (s ≠ "")
  | Json.arr [] => false
  | Json.arr (_ :: _) => true
  | Json.obj [] => false
  | Json.obj (_ :: _) => true

/-- Escape one character for Python `repr` of a string with quote `q`:
backslash, the quote character, `\n`, `\r`, `\t` get short escapes;
non-printable characters become `\xXX` (or `\uXXXX`): the model covers the
control ranges, DEL, the Latin-1 `\x7f`-`\xa0` block, the soft hyphen and
the Unicode separator code points — the full Unicode printability table
behind `repr` is out of scope, and no theorem in this file interprets the
`repr` of other non-ASCII data. -/
def pyEscChar (q : Char) (c : Char) : List Char :=
  if c = '\\' then ['\\', '\\']
  else if c = q then ['\\', q]
  else if c = '\n' then ['\\', 'n']
  else if c = '\r' then ['\\', 'r']
  else if c = '\t' then ['\\', 't']
  else if c.toNat < 32 ∨ (127 ≤ c.toNat ∧ c.toNat ≤ 160) ∨ c.toNat = 173 then
    ['\\', 'x', hexDigit (c.toNat / 16 % 16), hexDigit (c.toNat % 16)]
  else if c.toNat = 0x1680 ∨ (0x2000 ≤ c.toNat ∧ c.toNat ≤ 0x200a) ∨
      c.toNat = 0x2028 ∨ c.toNat = 0x2029 ∨ c.toNat = 0x202f ∨
      c.toNat = 0x205f ∨ c.toNat = 0x3000 then
    ['\\', 'u', hexDigit (c.toNat / 4096 % 16), hexDigit (c.toNat / 256 % 16),
     hexDigit (c.toNat / 16 % 16), hexDigit (c.toNat % 16)]
  else [c]

/-- Escape a whole character list for Python string `repr`. -/
def pyEscList (q : Char) : List Char → List Char
  | [] => []
  | c :: cs => pyEscChar q c ++ pyEscList q cs

/-- Python `repr` of a string: single-quoted, unless the string contains a
single quote and no double quote. -/
def pyReprStr (s : String) : List Char :=
  let sq := Char.ofNat 39
  let q := if s.data.contains sq ∧ ¬s.data.contains '"' then '"' else sq
  q :: (pyEscList q s.data ++ [q])

mutual

/-- Python `repr` of a JSON-loadable value (`str()` for every non-string).
A recorded float token stands for itself: Python would print the `repr` of
the parsed float, which agrees on canonical tokens such as `1.5` but not in
general (`1.50` prints as `1.5`); float formatting is out of the model's
scope and no theorem depends on this arm. -/
def pyRepr : Json → List Char
  | Json.null => ['N', 'o', 'n', 'e']
  | Json.bool true => ['T', 'r', 'u', 'e']
  | Json.bool false => ['F', 'a', 'l', 's', 'e']
  | Json.num n => (toString n).data
  | Json.numRaw lit => lit.data
  | Json.str s => pyReprStr s
  | Json.arr items => '[' :: (pyReprItems items ++ [']'])
  | Json.obj members => '{' :: (pyReprPairs members ++ ['}'])

/-- Python `repr` of list items, `", "`-separated. -/
def pyReprItems : List Json → List Char
  | [] => []
  | v :: rest => pyRepr v ++ pyReprSepItems rest

/-- Continuation of `pyReprItems` after the first item. -/
def pyReprSepItems : List Json → List Char
  | [] => []
  | v :: rest => ',' :: ' ' :: (pyRepr v ++ pyReprSepItems rest)

/-- Python `repr` of dict members, `", "`-separated, each as `key: value`. -/
def pyReprPairs : List (String × Json) → List Char
  | [] => []
  | (k, v) :: rest =>
      pyReprStr k ++ ':' :: ' ' :: (pyRepr v ++ pyReprSepPairs rest)

/-- Continuation of `pyReprPairs` after the first member. -/
def pyReprSepPairs : List (String × Json) → List Char
  | [] => []
  | (k, v) :: rest =>
      ',' :: ' ' :: (pyReprStr k ++ ':' :: ' ' :: (pyRepr v ++ pyReprSepPairs rest))

end

/-- Python `str()` of a JSON-loadable value: identity on strings, `repr`
otherwise (`None`, `True`, decimal integers, bracketed lists and dicts). -/
def pyStr : Json → String
  | Json.str s => s
  | v => String.mk (pyRepr v)

/-- The exact set of code points Python `str.isspace()` accepts, which is
what `str.strip()` removes: the ASCII whitespace `\t\n\v\f\r`, the
separators `\x1c`-`\x1f`, the space, NEL (`\x85`), no-break space
(`\xa0`), the Ogham space mark (`0x1680`), the `0x2000`-`0x200a` spaces,
the line and paragraph separators (`0x2028`, `0x2029`), the narrow
no-break space (`0x202f`), the medium mathematical space (`0x205f`) and
the ideographic space (`0x3000`). -/
def isPySpace (c : Char) : Bool :=
  c = ' ' || c = '\t' || c = '\n' || c = '\r' || c = '\x0b' || c = '\x0c' ||
  (28 ≤ c.toNat && c.toNat ≤ 31) || c.toNat = 0x85 || c.toNat = 0xa0 ||
  c.toNat = 0x1680 || (0x2000 ≤ c.toNat && c.toNat ≤ 0x200a) ||
  c.toNat = 0x2028 || c.toNat = 0x2029 || c.toNat = 0x202f ||
  c.toNat = 0x205f || c.toNat = 0x3000

/-- Python `str.strip()`: drop leading and trailing whitespace. -/
def pyStrip (s : String) : String :=
  String.mk (((s.data.dropWhile isPySpace).reverse.dropWhile isPySpace).reverse)

/-- Python `str.upper()` restricted to ASCII data, where it maps `a`-`z` to
`A`-`Z` and fixes the rest, exactly as `Char.toUpper`.  Unicode special
casing (`ß` to `SS`, accented letters, and so on) is outside the model:
the theorems that use `pyUpper` on open inputs carry an ASCII hypothesis. -/
def pyUpper (s : String) : String :=
  String.mk (s.data.map Char.toUpper)

/-- Values whose Python `str()` the model reproduces exactly: strings
(identity), integers (decimal digits), booleans and `None` (fixed words).
Containers go through `repr` with the full Unicode printability table, and
float tokens through float formatting — both outside the model. -/
def strCoercionExact : Json → Bool
  | Json.str _ => true
  | Json.num _ => true
  | Json.bool _ => true
  | Json.null => true
  | _ => false

/-! ### Registration Client: one cycle of `register_loop` (lines 31-40) -/

/-- Python `"websocket_url" in data` when `data` is a list: element
membership, true exactly when the string itself is an element (Python `==`
never equates it with numbers, booleans, `null` or nested containers). -/
def listHasWu : List Json → Bool
  | [] => false
  | Json.str s :: rest => if s = "websocket_url" then true else listHasWu rest
  | _ :: rest => listHasWu rest

/-- Python `ws_info.update(data)` when `data` is a list, as
`PyDict_MergeFromSeq2` executes it: elements are consumed left to right and
bound one at a time.  A two-element list with a string first component binds
that key; one with a number, boolean, `null` or float first component binds
a non-string (but hashable) key, which the program can never read back — it
only ever reads the string keys `websocket_url` and `token` — so the binding
falls outside the string-keyed state and is dropped; a two-character string
binds its first character to its second.  Any other element — a list of
another length, a pair with an unhashable (list or dict) key, a string of
another length, a bare number, boolean, `null`, float or object — raises
`ValueError` or `TypeError`, ending the update with every earlier binding
kept. -/
def updateFromList : List (String × Json) → List Json → List (String × Json)
  | st, [] => st
  | st, Json.arr [Json.str k, v] :: rest => updateFromList (dictPut st k v) rest
  | st, Json.arr [Json.num _, _] :: rest => updateFromList st rest
  | st, Json.arr [Json.bool _, _] :: rest => updateFromList st rest
  | st, Json.arr [Json.null, _] :: rest => updateFromList st rest
  | st, Json.arr [Json.numRaw _, _] :: rest => updateFromList st rest
  | st, Json.str s :: rest =>
      (match s.data with
       | [c1, c2] =>
           updateFromList (dictPut st (String.mk [c1]) (Json.str (String.mk [c2]))) rest
       | _ => st)
  | st, _ :: _ => st

/-- Whether the list-shaped `dict.update` raises at some element (the
bindings before that element survive, as in `updateFromList`). -/
def updateFromListRaises : List Json → Bool
  | [] => false
  | Json.arr [Json.str _, _] :: rest => updateFromListRaises rest
  | Json.arr [Json.num _, _] :: rest => updateFromListRaises rest
  | Json.arr [Json.bool _, _] :: rest => updateFromListRaises rest
  | Json.arr [Json.null, _] :: rest => updateFromListRaises rest
  | Json.arr [Json.numRaw _, _] :: rest => updateFromListRaises rest
  | Json.str s :: rest =>
      (match s.data with
       | [_, _] => updateFromListRaises rest
       | _ => true)
  | _ :: _ => true

/-- One registration cycle of `register_loop`.  `resp = none` models a raised
exception before the guard (network failure in `requests.post`, or
`res.json()` failing to decode); `resp = some (ok, data)` models a completed
call with `res.ok = ok` and decoded body `data`.  The update runs only under
`res.ok and "websocket_url" in data`, and `ws_info.update(data)` merges
`data`'s bindings into the shared dict.  When `data` is a JSON list, the
membership test is element membership; if it passes, `dict.update` binds the
list's leading well-formed pairs until an element raises — and one always
does, since the matching string element itself is thirteen characters long —
leaving the partial bindings in place (the exception is caught and logged).
A string response can pass the membership test as a substring check, but
`dict.update` then raises at its first element (a one-character string)
before binding anything; for a number, boolean or `null` the membership test
itself raises `TypeError`; in each of those cases the state survives
unchanged. -/
def registerCycle (state : List (String × Json)) (resp : Option (Bool × Json)) :
    List (String × Json) :=
  match resp with
  | none => state
  | some (ok, data) =>
      if ok then
        match data with
        | Json.obj kvs =>
            if dictHas kvs "websocket_url" then dictUpdate state kvs else state
        | Json.arr items =>
            if listHasWu items then updateFromList state items else state
        | _ => state
      else state

/-! ### Session Loop: per-message processing (lines 54-71) -/

/-- Outcome of processing one inbound frame: continue silently with the next
frame, send one outbound frame, or let an uncaught exception escape to the
outer handler of `websocket_loop` (which drops the connection). -/
inductive FrameOutcome where
  | silent
  | send (frame : Json)
  | raise

/-- The defaulted name of line 62:
`str(inputs.get("name") or "").strip() or "world"`. -/
def handlerName (inputs : List (String × Json)) : String :=
  let v := (dictGet inputs "name").getD Json.null
  let v1 := if pyTruthy v then v else Json.str ""
  let s := pyStrip (pyStr v1)
  if s = "" then "world" else s

/-- The outputs dict of lines 63-66. -/
def handlerOutputs (inputs : List (String × Json)) : Json :=
  let nm := handlerName inputs
  Json.obj [("greeting", Json.str ("Hello " ++ nm)),
            ("shout", Json.str ("HELLO " ++ pyUpper nm))]

/-- Processing of one decoded payload (lines 59-71).  A non-object payload
raises `AttributeError` at `payload.get("node")`; an object addressed to a
different (or missing, or non-string) `node` is skipped; a matched object
whose `inputs` value is present but not an object raises `AttributeError`
at `inputs.get("name")`; otherwise one response frame is sent echoing the
inbound `uuid` (`None`, i.e. JSON `null`, when absent). -/
def handleFrame (nodeName : String) (payload : Json) : FrameOutcome :=
  match payload with
  | Json.obj kvs =>
      match dictGet kvs "node" with
      | some (Json.str s) =>
          if s = nodeName then
            match (dictGet kvs "inputs").getD (Json.obj []) with
            | Json.obj ikvs =>
                FrameOutcome.send
                  (Json.obj [("node", Json.str nodeName),
                             ("outputs", handlerOutputs ikvs),
                             ("uuid", (dictGet kvs "uuid").getD Json.null)])
            | _ => FrameOutcome.raise
          else FrameOutcome.silent
      | _ => FrameOutcome.silent
  | _ => FrameOutcome.raise

/-- Processing of one received text frame (lines 54-71): `json.loads`
failures are swallowed by the inner `try`/`except` and the loop just
continues with the next frame. -/
def recvStep (nodeName : String) (msg : String) : FrameOutcome :=
  match Json.parse msg with
  | none => FrameOutcome.silent
  | some payload => handleFrame nodeName payload

/-! ### Session Loop: outer reconnect machine (lines 44-74) -/

/-- Control position of `websocket_loop`: at the top of the outer loop about
to re-read the shared credential (`waiting`), or inside an open websocket
session (`connected`, remembering the URL and token used to open it). -/
inductive Phase where
  | waiting
  | connected (url token : String)

/-- Environment event consumed by one step of `websocket_loop`: a poll tick,
the outcome of a connect attempt, one received frame, or a transport failure
of the open socket. -/
inductive Ev where
  | poll
  | conn (ok : Bool)
  | recv (msg : String)
  | drop

/-- Observable action emitted by one step of the loops: sleeping (in time
units, matching `asyncio.sleep`), a connect attempt, sending a frame, a
registration HTTP call, or a write to the shared `ws_info` dict.  The last
two never occur in `websocket_loop` steps; they are listed so the theorems
can state that. -/
inductive Act where
  | sleep (n : Nat)
  | connectTo (url token : String)
  | sendFrame (frame : Json)
  | registerCall
  | writeShared

/-- Whether an action is a registration call or a shared-state write — the
two things the Session Loop must never do. -/
def actMutates : Act → Bool
  | Act.registerCall => true
  | Act.writeShared => true
  | _ => false

/-- Line 48: the snapshot is usable only when both values are truthy. -/
def credReady (sh : List (String × Json)) : Bool :=
  pyTruthy ((dictGet sh "websocket_url").getD Json.null) &&
    pyTruthy ((dictGet sh "token").getD Json.null)

/-- One step of `websocket_loop` (lines 44-74) as a state machine over the
shared dict `sh` (read under the lock, returned unchanged: the loop never
writes it), the control phase and one environment event.  At the loop top an
unusable snapshot sleeps 1 and re-polls; a usable one is used for a connect
attempt `<url>?auth=<token>` (f-string coercion via `str()`), entering the
session on success and sleeping 5 before returning to the top on failure.
In a session, a received frame is processed by `recvStep`; an uncaught
exception there, or a socket failure, is caught at line 72, sleeps 5 and
returns to the loop top, where the credential is re-read fresh. -/
def sessionStep (nodeName : String) (sh : List (String × Json)) (ph : Phase)
    (ev : Ev) : List (String × Json) × Phase × List Act :=
  match ph with
  | Phase.waiting =>
      if credReady sh then
        let u := pyStr ((dictGet sh "websocket_url").getD Json.null)
        let t := pyStr ((dictGet sh "token").getD Json.null)
        match ev with
        | Ev.conn true => (sh, Phase.connected u t, [Act.connectTo u t])
        | Ev.conn false => (sh, Phase.waiting, [Act.connectTo u t, Act.sleep 5])
        | _ => (sh, Phase.waiting, [])
      else (sh, Phase.waiting, [Act.sleep 1])
  | Phase.connected u t =>
      match ev with
      | Ev.recv msg =>
          match recvStep nodeName msg with
          | FrameOutcome.silent => (sh, Phase.connected u t, [])
          | FrameOutcome.send f => (sh, Phase.connected u t, [Act.sendFrame f])
          | FrameOutcome.raise => (sh, Phase.waiting, [Act.sleep 5])
      | Ev.drop => (sh, Phase.waiting, [Act.sleep 5])
      | _ => (sh, Phase.connected u t, [])

/-! ### OutboundResult and its frame codec -/

/-- The spec's OutboundResult: source node, named outputs, correlation id
(absent encodes as JSON `null`, matching `payload.get("uuid")` on a frame
without a `uuid`). -/
structure OutboundResult where
  source_node : String
  outputs : List (String × String)
  correlation_id : Option String

/-- Encoding of an OutboundResult as the dict literal of lines 67-71. -/
def encodeOutbound (r : OutboundResult) : Json :=
  Json.obj [("node", Json.str r.source_node),
            ("outputs", Json.obj (r.outputs.map (fun p => (p.1, Json.str p.2)))),
            ("uuid", match r.correlation_id with
                     | some u => Json.str u
                     | none => Json.null)]

/-- Read back a members list whose values are all strings. -/
def strPairsOf : List (String × Json) → Option (List (String × String))
  | [] => some []
  | (k, Json.str v) :: rest => (strPairsOf rest).map (fun l => (k, v) :: l)
  | _ => none

/-- Modelled from the spec: the receiving peer's view of an outbound frame
(`{"node": string, "outputs": {..}, "uuid": string-or-null}`, §6); the peer's
decoder is not part of this repository. -/
def decodeOutbound (v : Json) : Option OutboundResult :=
  match v with
  | Json.obj [("node", Json.str n), ("outputs", Json.obj outs), ("uuid", u)] =>
      match strPairsOf outs, u with
      | some l, Json.str s => some ⟨n, l, some s⟩
      | some l, Json.null => some ⟨n, l, none⟩
      | _, _ => none
  | _ => none

/-- Serialization of an OutboundResult to its JSON text frame
(`json.dumps` at line 67). -/
def renderOutbound (r : OutboundResult) : String :=
  String.mk (renderL (encodeOutbound r))

/-- Modelled from the spec: the receiving peer parsing a JSON text frame and
reading the OutboundResult back (the peer's code is not in this repository;
frames are UTF-8 JSON text frames per §6). -/
def decodeOutboundFrame (s : String) : Option OutboundResult :=
  (Json.parse s).bind decodeOutbound

/-! ## Lemmas

First the association-list dictionary, then the JSON codec round trip, then
the claim theorems. -/

theorem dictGet_dictPut_self (m : List (String × Json)) (k : String) (v : Json) :
    dictGet (dictPut m k v) k = some v := by
  induction m with
  | nil => simp [dictPut, dictGet]
  | cons kv rest ih =>
      obtain ⟨k0, v0⟩ := kv
      by_cases h : k0 = k
      · subst h
        simp [dictPut, dictGet]
      · simp [dictPut, dictGet, h, ih]

theorem dictGet_dictPut_other (m : List (String × Json)) (k0 k : String)
    (v : Json) (h : k0 ≠ k) : dictGet (dictPut m k0 v) k = dictGet m k := by
  induction m with
  | nil => simp [dictPut, dictGet, h]
  | cons kv rest ih =>
      obtain ⟨k1, v1⟩ := kv
      by_cases h1 : k1 = k0
      · subst h1
        simp [dictPut, dictGet, h]
      · simp [dictPut, dictGet, h1, ih]

theorem dictGet_dictUpdate_not_mem (kvs : List (String × Json)) :
    ∀ (m : List (String × Json)) (k : String), (∀ kv ∈ kvs, kv.1 ≠ k) →
      dictGet (dictUpdate m kvs) k = dictGet m k := by
  induction kvs with
  | nil => intro m k _; rfl
  | cons kv rest ih =>
      intro m k h
      have hkv : kv.1 ≠ k := h kv (by simp)
      have hrest : ∀ x ∈ rest, x.1 ≠ k := fun x hx => h x (by simp [hx])
      calc dictGet (dictUpdate (dictPut m kv.1 kv.2) rest) k
          = dictGet (dictPut m kv.1 kv.2) k := ih _ k hrest
        _ = dictGet m k := dictGet_dictPut_other _ _ _ _ hkv

theorem dictGet_dictUpdate_mem (kvs : List (String × Json)) :
    ∀ (m : List (String × Json)) (k : String) (v : Json),
      (kvs.map Prod.fst).Nodup → dictGet kvs k = some v →
      dictGet (dictUpdate m kvs) k = some v := by
  induction kvs with
  | nil => intro m k v _ h; simp [dictGet] at h
  | cons kv rest ih =>
      intro m k v hnd hget
      obtain ⟨k0, v0⟩ := kv
      rw [List.map_cons, List.nodup_cons] at hnd
      by_cases h : k0 = k
      · subst h
        rw [dictGet, if_pos rfl] at hget
        have hv : v0 = v := by injection hget
        subst hv
        have hrest : ∀ x ∈ rest, x.1 ≠ k0 := by
          intro x hx he
          exact hnd.1 (List.mem_map.mpr ⟨x, hx, he⟩)
        calc dictGet (dictUpdate (dictPut m k0 v0) rest) k0
            = dictGet (dictPut m k0 v0) k0 := dictGet_dictUpdate_not_mem _ _ _ hrest
          _ = some v0 := dictGet_dictPut_self _ _ _
      · rw [dictGet, if_neg h] at hget
        exact ih _ k v hnd.2 hget

theorem dictHas_of_dictGet (m : List (String × Json)) (k : String) (v : Json)
    (h : dictGet m k = some v) : dictHas m k = true := by
  induction m with
  | nil => simp [dictGet] at h
  | cons kv rest ih =>
      obtain ⟨k0, v0⟩ := kv
      by_cases h0 : k0 = k
      · simp [dictHas, h0]
      · rw [dictGet, if_neg h0] at h
        simp [dictHas, h0, ih h]

/-! ### JSON codec round trip: string bodies -/

theorem hexVal_hexDigit (n : Nat) (h : n < 16) : hexVal (hexDigit n) = some n := by
  interval_cases n <;> decide

theorem parseStrBody_escChar (c : Char) (rest : List Char) :
    parseStrBody (escChar c ++ rest)
      = (parseStrBody rest).map (fun p => (c :: p.1, p.2)) := by
  unfold escChar
  split_ifs with h1 h2 h3 h4 h5 h6 h7 h8
  · subst h1; rw [parseStrBody.eq_def]; simp [unesc]
  · subst h2; rw [parseStrBody.eq_def]; simp [unesc]
  · subst h3; rw [parseStrBody.eq_def]; simp [unesc]
  · subst h4; rw [parseStrBody.eq_def]; simp [unesc]
  · subst h5; rw [parseStrBody.eq_def]; simp [unesc]
  · subst h6; rw [parseStrBody.eq_def]; simp [unesc]
  · subst h7; rw [parseStrBody.eq_def]; simp [unesc]
  · have hdiv : c.toNat / 16 < 16 := by omega
    have hmod : c.toNat % 16 < 16 := Nat.mod_lt _ (by omega)
    have hhex : hex4 '0' '0' (hexDigit (c.toNat / 16)) (hexDigit (c.toNat % 16))
        = some c.toNat := by
      rw [hex4]
      rw [show hexVal '0' = some 0 from rfl]
      rw [hexVal_hexDigit _ hdiv, hexVal_hexDigit _ hmod]
      show some (((0 * 16 + 0) * 16 + c.toNat / 16) * 16 + c.toNat % 16) = some c.toNat
      congr 1
      omega
    simp only [List.cons_append, List.nil_append]
    rw [parseStrBody.eq_def]
    simp [hhex, Char.ofNat_toNat]
  · simp only [List.cons_append, List.nil_append]
    rw [parseStrBody.eq_def]
    simp [h1, h2, h8]

theorem parseStrBody_escList (l : List Char) :
    ∀ rest : List Char, parseStrBody (escList l ++ '"' :: rest) = some (l, rest) := by
  induction l with
  | nil =>
      intro rest
      rw [escList, List.nil_append, parseStrBody.eq_def]
      simp
  | cons c t ih =>
      intro rest
      rw [escList, List.append_assoc, parseStrBody_escChar, ih]
      rfl

/-! ### JSON codec round trip: parser reduction steps -/

theorem parseValue_succ_null (f : Nat) (r : List Char) :
    parseValue (f + 1) ('n' :: 'u' :: 'l' :: 'l' :: r) = some (Json.null, r) := rfl

theorem parseValue_succ_quote (f : Nat) (r : List Char) :
    parseValue (f + 1) ('"' :: r)
      = (parseStrBody r).map (fun p => (Json.str (String.mk p.1), p.2)) := rfl

theorem parseValue_succ_obrace (f : Nat) (r : List Char) :
    parseValue (f + 1) ('{' :: r)
      = (match skipWs r with
         | '}' :: r2 => some (Json.obj [], r2)
         | r2 => (parsePairs f r2).map (fun p => (Json.obj p.1, p.2))) := rfl

theorem parsePairs_succ_quote (f : Nat) (r : List Char) :
    parsePairs (f + 1) ('"' :: r)
      = (match parseStrBody r with
         | none => none
         | some (kcs, r1) =>
             match skipWs r1 with
             | ':' :: r2 =>
                 match parseValue f r2 with
                 | none => none
                 | some (v, r3) =>
                     match skipWs r3 with
                     | ',' :: r4 =>
                         (parsePairs f r4).map
                           (fun p => ((String.mk kcs, v) :: p.1, p.2))
                     | '}' :: r4 => some ([(String.mk kcs, v)], r4)
                     | _ => none
             | _ => none) := rfl

theorem parseValue_succ_space (f : Nat) (x : List Char) :
    parseValue (f + 1) (' ' :: x) = parseValue (f + 1) x := by
  simp only [parseValue]
  rfl

theorem parsePairs_succ_space (f : Nat) (x : List Char) :
    parsePairs (f + 1) (' ' :: x) = parsePairs (f + 1) x := by
  simp only [parsePairs]
  rfl

theorem sepPairs_cons (kv : String × Json) (rest : List (String × Json)) :
    sepPairs (kv :: rest) = ',' :: ' ' :: renderPairs (kv :: rest) := by
  obtain ⟨k, v⟩ := kv
  rfl

theorem renderStrL_cons (s : String) (rest : List Char) :
    renderStrL s ++ rest = '"' :: (escList s.data ++ '"' :: rest) := by
  simp [renderStrL]

theorem parseValue_succ_renderStr (f : Nat) (s : String) (rest : List Char) :
    parseValue (f + 1) (renderStrL s ++ rest) = some (Json.str s, rest) := by
  rw [renderStrL_cons, parseValue_succ_quote, parseStrBody_escList]
  rfl

theorem isWs_colon : isWs ':' = false := rfl

theorem isWs_comma : isWs ',' = false := rfl

theorem skipWs_cons_of_not (c : Char) (cs : List Char) (h : isWs c = false) :
    skipWs (c :: cs) = c :: cs := by
  rw [skipWs]
  simp [h]

theorem parseValue_fuel_pos (f : Nat) (cs : List Char) (x : Json × List Char)
    (h : parseValue f cs = some x) : ∃ g, f = g + 1 := by
  cases f with
  | zero => simp [parseValue] at h
  | succ g => exact ⟨g, rfl⟩

theorem parsePairs_member (f : Nat) (k : String) (v : Json)
    (tail : List (String × Json)) (rest : List Char)
    (hv : parseValue f (renderL v ++ (sepPairs tail ++ '}' :: rest))
        = some (v, sepPairs tail ++ '}' :: rest))
    (htail : tail = [] ∨
      parsePairs f (renderPairs tail ++ '}' :: rest) = some (tail, rest)) :
    parsePairs (f + 1) (renderPairs ((k, v) :: tail) ++ '}' :: rest)
      = some ((k, v) :: tail, rest) := by
  obtain ⟨g, rfl⟩ := parseValue_fuel_pos f _ _ hv
  have harg : renderPairs ((k, v) :: tail) ++ '}' :: rest
      = '"' :: (escList k.data ++ '"' ::
          (':' :: ' ' :: (renderL v ++ (sepPairs tail ++ '}' :: rest)))) := by
    simp [renderPairs, renderStrL, List.append_assoc]
  have hsp : parseValue (g + 1) (' ' :: (renderL v ++ (sepPairs tail ++ '}' :: rest)))
      = some (v, sepPairs tail ++ '}' :: rest) := by
    rw [parseValue_succ_space]
    exact hv
  rw [harg, parsePairs_succ_quote, parseStrBody_escList]
  simp only [skipWs_cons_of_not _ _ isWs_colon, hsp]
  cases tail with
  | nil =>
      simp only [sepPairs, List.nil_append]
      simp only [skipWs_cons_of_not ('}') rest rfl]
  | cons t ts =>
      rcases htail with h | htail
      · exact absurd h (by simp)
      rw [sepPairs_cons]
      have h2 : skipWs ((',' :: ' ' :: renderPairs (t :: ts)) ++ '}' :: rest)
          = ',' :: (' ' :: (renderPairs (t :: ts) ++ '}' :: rest)) := by
        simp [skipWs_cons_of_not _ _ isWs_comma]
      simp only [h2]
      have h3 : parsePairs (g + 1) (' ' :: (renderPairs (t :: ts) ++ '}' :: rest))
          = some (t :: ts, rest) := by
        rw [parsePairs_succ_space]
        exact htail
      simp only [h3]
      rfl

theorem renderL_str (s : String) : renderL (Json.str s) = renderStrL s := by
  rw [renderL]

theorem renderL_null : renderL Json.null = ['n', 'u', 'l', 'l'] := by
  rw [renderL]

theorem renderL_obj (members : List (String × Json)) :
    renderL (Json.obj members) = '{' :: (renderPairs members ++ ['}']) := by
  rw [renderL]

theorem parseValue_succ_renderLstr (f : Nat) (s : String) (rest : List Char) :
    parseValue (f + 1) (renderL (Json.str s) ++ rest) = some (Json.str s, rest) := by
  rw [renderL_str, parseValue_succ_renderStr]

/-- A nonempty member list with string values parses whole, for any fuel
above its length. -/
theorem parsePairs_str_values (ps : List (String × String)) :
    ∀ (rest : List Char) (f : Nat), ps ≠ [] → ps.length < f →
      parsePairs f (renderPairs (ps.map (fun p => (p.1, Json.str p.2))) ++ '}' :: rest)
        = some (ps.map (fun p => (p.1, Json.str p.2)), rest) := by
  induction ps with
  | nil => intro rest f h _; exact absurd rfl h
  | cons kv tail ih =>
      intro rest f _ hf
      obtain ⟨k, v⟩ := kv
      obtain ⟨g, rfl⟩ : ∃ g, f = g + 1 := ⟨f - 1, by omega⟩
      obtain ⟨g1, rfl⟩ : ∃ g1, g = g1 + 1 := ⟨g - 1, by simp at hf; omega⟩
      rw [List.map_cons]
      apply parsePairs_member
      · exact parseValue_succ_renderLstr g1 v _
      · cases tail with
        | nil => exact Or.inl rfl
        | cons t ts =>
            refine Or.inr ?_
            have := ih rest (g1 + 1) (by simp) (by simp at hf ⊢; omega)
            rw [List.map_cons] at this
            exact this


/-- The outputs object (string values) parses whole. -/
theorem parseValue_outputs_obj (outs : List (String × String)) (rest : List Char)
    (f : Nat) (hf : outs.length + 1 < f) :
    parseValue f (renderL (Json.obj (outs.map (fun p => (p.1, Json.str p.2)))) ++ rest)
      = some (Json.obj (outs.map (fun p => (p.1, Json.str p.2))), rest) := by
  obtain ⟨g, rfl⟩ : ∃ g, f = g + 1 := ⟨f - 1, by omega⟩
  cases outs with
  | nil =>
      rw [List.map_nil, renderL_obj]
      rw [show renderPairs ([] : List (String × Json)) = [] from rfl]
      rw [show ('{' :: (([] : List Char) ++ ['}'])) ++ rest = '{' :: '}' :: rest from by simp]
      rw [parseValue_succ_obrace]
      simp only [skipWs_cons_of_not ('}') rest rfl]
  | cons o os =>
      obtain ⟨k, v⟩ := o
      rw [List.map_cons, renderL_obj]
      have hps := parsePairs_str_values ((k, v) :: os) rest g (by simp)
        (by simp only [List.length_cons] at hf ⊢; omega)
      rw [List.map_cons] at hps
      have harg : ('{' :: (renderPairs ((k, Json.str v) :: os.map (fun p => (p.1, Json.str p.2))) ++ ['}'])) ++ rest
          = '{' :: (renderPairs ((k, Json.str v) :: os.map (fun p => (p.1, Json.str p.2))) ++ '}' :: rest) := by
        simp
      rw [harg, parseValue_succ_obrace]
      have hhead : renderPairs ((k, Json.str v) :: os.map (fun p => (p.1, Json.str p.2))) ++ '}' :: rest
          = '"' :: (escList k.data ++ '"' :: (':' :: ' ' :: (renderL (Json.str v) ++
              (sepPairs (os.map (fun p => (p.1, Json.str p.2))) ++ '}' :: rest)))) := by
        simp [renderPairs, renderStrL, List.append_assoc]
      have hsk : skipWs (renderPairs ((k, Json.str v) :: os.map (fun p => (p.1, Json.str p.2))) ++ '}' :: rest)
          = renderPairs ((k, Json.str v) :: os.map (fun p => (p.1, Json.str p.2))) ++ '}' :: rest := by
        rw [hhead]
        exact skipWs_cons_of_not _ _ rfl
      simp only [hsk]
      split
      · rename_i r2 heq
        rw [hhead] at heq
        simp at heq
      · rw [hps]
        rfl

/-- A three-member outbound-shaped object parses whole, given that its third
member's value parses at every successor fuel. -/
theorem parseValue_outframe (nm : String) (outs : List (String × String))
    (uv : Json)
    (hvu : ∀ (g : Nat) (r2 : List Char),
      parseValue (g + 1) (renderL uv ++ r2) = some (uv, r2))
    (rest : List Char) (f : Nat) (hf : outs.length + 4 < f) :
    parseValue f (renderL (Json.obj [("node", Json.str nm),
        ("outputs", Json.obj (outs.map (fun p => (p.1, Json.str p.2)))),
        ("uuid", uv)]) ++ rest)
      = some (Json.obj [("node", Json.str nm),
          ("outputs", Json.obj (outs.map (fun p => (p.1, Json.str p.2)))),
          ("uuid", uv)], rest) := by
  obtain ⟨f1, rfl⟩ : ∃ a, f = a + 1 := ⟨f - 1, by omega⟩
  obtain ⟨f2, rfl⟩ : ∃ a, f1 = a + 1 := ⟨f1 - 1, by omega⟩
  obtain ⟨f3, rfl⟩ : ∃ a, f2 = a + 1 := ⟨f2 - 1, by omega⟩
  obtain ⟨f4, rfl⟩ : ∃ a, f3 = a + 1 := ⟨f3 - 1, by omega⟩
  obtain ⟨f5, rfl⟩ : ∃ a, f4 = a + 1 := ⟨f4 - 1, by omega⟩
  rw [renderL_obj]
  rw [show ('{' :: (renderPairs [("node", Json.str nm),
        ("outputs", Json.obj (outs.map (fun p => (p.1, Json.str p.2)))),
        ("uuid", uv)] ++ ['}'])) ++ rest
      = '{' :: (renderPairs [("node", Json.str nm),
        ("outputs", Json.obj (outs.map (fun p => (p.1, Json.str p.2)))),
        ("uuid", uv)] ++ '}' :: rest)
      from by simp]
  rw [parseValue_succ_obrace]
  have hpairs : parsePairs (f5 + 1 + 1 + 1 + 1)
      (renderPairs [("node", Json.str nm),
        ("outputs", Json.obj (outs.map (fun p => (p.1, Json.str p.2)))),
        ("uuid", uv)] ++ '}' :: rest)
      = some ([("node", Json.str nm),
        ("outputs", Json.obj (outs.map (fun p => (p.1, Json.str p.2)))),
        ("uuid", uv)], rest) := by
    apply parsePairs_member
    · exact parseValue_succ_renderLstr _ nm _
    · refine Or.inr ?_
      apply parsePairs_member
      · exact parseValue_outputs_obj outs _ _ (by omega)
      · refine Or.inr ?_
        apply parsePairs_member
        · rw [show sepPairs ([] : List (String × Json)) ++ '}' :: rest = '}' :: rest from rfl]
          exact hvu f5 ('}' :: rest)
        · exact Or.inl rfl
  have hhead : renderPairs [("node", Json.str nm),
        ("outputs", Json.obj (outs.map (fun p => (p.1, Json.str p.2)))),
        ("uuid", uv)] ++ '}' :: rest
      = '"' :: (escList ("node" : String).data ++ '"' ::
          (':' :: ' ' :: (renderL (Json.str nm) ++
            (sepPairs [("outputs", Json.obj (outs.map (fun p => (p.1, Json.str p.2)))),
              ("uuid", uv)] ++ '}' :: rest)))) := by
    simp [renderPairs, renderStrL, List.append_assoc]
  have hsk : skipWs (renderPairs [("node", Json.str nm),
        ("outputs", Json.obj (outs.map (fun p => (p.1, Json.str p.2)))),
        ("uuid", uv)] ++ '}' :: rest)
      = renderPairs [("node", Json.str nm),
        ("outputs", Json.obj (outs.map (fun p => (p.1, Json.str p.2)))),
        ("uuid", uv)] ++ '}' :: rest := by
    rw [hhead]
    exact skipWs_cons_of_not _ _ rfl
  simp only [hsk]
  split
  · rename_i r2 heq
    rw [hhead] at heq
    simp at heq
  · rw [hpairs]
    rfl

/-- A rendered outbound frame parses back to its value, for any fuel above
the number of outputs plus four. -/
theorem parseValue_outbound (nm : String) (outs : List (String × String))
    (u : Option String) (rest : List Char) (f : Nat)
    (hf : outs.length + 4 < f) :
    parseValue f (renderL (encodeOutbound ⟨nm, outs, u⟩) ++ rest)
      = some (encodeOutbound ⟨nm, outs, u⟩, rest) := by
  cases u with
  | none =>
      exact parseValue_outframe nm outs Json.null
        (fun g r2 => by rw [renderL_null]; exact parseValue_succ_null g r2) rest f hf
  | some s =>
      exact parseValue_outframe nm outs (Json.str s)
        (fun g r2 => parseValue_succ_renderLstr g s r2) rest f hf

theorem renderStrL_len (s : String) : 2 ≤ (renderStrL s).length := by
  simp [renderStrL]

theorem sepPairs_strs_len (outs : List (String × String)) :
    outs.length ≤ (sepPairs (outs.map (fun p => (p.1, Json.str p.2)))).length := by
  induction outs with
  | nil => simp
  | cons o os ih =>
      obtain ⟨k, v⟩ := o
      have h1 := renderStrL_len k
      simp only [List.map_cons, sepPairs, List.length_cons, List.length_append]
      omega

theorem renderPairs_strs_len (outs : List (String × String)) :
    outs.length ≤ (renderPairs (outs.map (fun p => (p.1, Json.str p.2)))).length := by
  cases outs with
  | nil => simp
  | cons o os =>
      obtain ⟨k, v⟩ := o
      have h1 := renderStrL_len k
      have h2 := sepPairs_strs_len os
      simp only [List.map_cons, renderPairs, List.length_cons, List.length_append]
      omega

theorem outbound_len (nm : String) (outs : List (String × String))
    (u : Option String) :
    outs.length + 4 ≤ (renderL (encodeOutbound ⟨nm, outs, u⟩)).length := by
  have henc : encodeOutbound ⟨nm, outs, u⟩
      = Json.obj [("node", Json.str nm),
                  ("outputs", Json.obj (outs.map (fun p => (p.1, Json.str p.2)))),
                  ("uuid", (match u with | some s => Json.str s | none => Json.null))] := rfl
  have h1 := renderStrL_len ("node" : String)
  have h2 := renderStrL_len ("outputs" : String)
  have h3 := renderStrL_len ("uuid" : String)
  have h4 := renderPairs_strs_len outs
  have h5 : (renderL (Json.str nm)).length = (renderStrL nm).length := by
    rw [renderL_str]
  have h6 : (renderL (Json.obj (outs.map (fun p => (p.1, Json.str p.2))))).length
      = 2 + (renderPairs (outs.map (fun p => (p.1, Json.str p.2)))).length := by
    rw [renderL_obj]
    simp
    omega
  rw [henc, renderL_obj]
  simp only [renderPairs, sepPairs, List.length_cons, List.length_append, h6]
  omega

theorem parse_renderOutbound (r : OutboundResult) :
    Json.parse (renderOutbound r) = some (encodeOutbound r) := by
  obtain ⟨nm, outs, u⟩ := r
  have hlenEq : (renderOutbound ⟨nm, outs, u⟩).length
      = (renderL (encodeOutbound ⟨nm, outs, u⟩)).length := rfl
  have hf : outs.length + 4 < (renderOutbound ⟨nm, outs, u⟩).length + 1 := by
    have := outbound_len nm outs u
    omega
  have hstep := parseValue_outbound nm outs u []
    ((renderOutbound ⟨nm, outs, u⟩).length + 1) hf
  rw [List.append_nil] at hstep
  rw [Json.parse]
  rw [show (renderOutbound ⟨nm, outs, u⟩).data
      = renderL (encodeOutbound ⟨nm, outs, u⟩) from rfl]
  rw [hstep]
  rfl

theorem strPairsOf_map (outs : List (String × String)) :
    strPairsOf (outs.map (fun p => (p.1, Json.str p.2))) = some outs := by
  induction outs with
  | nil => rfl
  | cons o os ih =>
      obtain ⟨k, v⟩ := o
      simp [strPairsOf, ih]

theorem decodeOutbound_encode (r : OutboundResult) :
    decodeOutbound (encodeOutbound r) = some r := by
  obtain ⟨nm, outs, u⟩ := r
  cases u with
  | none => simp [encodeOutbound, decodeOutbound, strPairsOf_map]
  | some s => simp [encodeOutbound, decodeOutbound, strPairsOf_map]

/-! ### Frame handling lemmas -/

theorem handleFrame_not_matched (n : String) (kvs : List (String × Json))
    (h : dictGet kvs "node" ≠ some (Json.str n)) :
    handleFrame n (Json.obj kvs) = FrameOutcome.silent := by
  cases hv : dictGet kvs "node" with
  | none => simp [handleFrame, hv]
  | some v =>
      cases v with
      | str s =>
          have hsn : s ≠ n := by
            intro he
            exact h (by rw [hv, he])
          simp [handleFrame, hv, hsn]
      | null => simp [handleFrame, hv]
      | bool b => simp [handleFrame, hv]
      | num m => simp [handleFrame, hv]
      | numRaw lit => simp [handleFrame, hv]
      | arr items => simp [handleFrame, hv]
      | obj members => simp [handleFrame, hv]

theorem handleFrame_matched (n : String) (kvs ikvs : List (String × Json))
    (hn : dictGet kvs "node" = some (Json.str n))
    (hi : (dictGet kvs "inputs").getD (Json.obj []) = Json.obj ikvs) :
    handleFrame n (Json.obj kvs)
      = FrameOutcome.send (Json.obj [("node", Json.str n),
          ("outputs", handlerOutputs ikvs),
          ("uuid", (dictGet kvs "uuid").getD Json.null)]) := by
  simp [handleFrame, hn, hi]

theorem handleFrame_nonobj (n : String) (payload : Json)
    (h : ∀ kvs, payload ≠ Json.obj kvs) :
    handleFrame n payload = FrameOutcome.raise := by
  cases payload with
  | obj members => exact absurd rfl (h members)
  | null => rfl
  | bool b => rfl
  | num m => rfl
  | numRaw lit => rfl
  | str s => rfl
  | arr items => rfl

theorem handleFrame_bad_inputs (n : String) (kvs : List (String × Json)) (v : Json)
    (hn : dictGet kvs "node" = some (Json.str n))
    (hi : dictGet kvs "inputs" = some v)
    (h : ∀ ikvs, v ≠ Json.obj ikvs) :
    handleFrame n (Json.obj kvs) = FrameOutcome.raise := by
  cases v with
  | obj members => exact absurd rfl (h members)
  | null => simp [handleFrame, hn, hi]
  | bool b => simp [handleFrame, hn, hi]
  | num m => simp [handleFrame, hn, hi]
  | numRaw lit => simp [handleFrame, hn, hi]
  | str s => simp [handleFrame, hn, hi]
  | arr items => simp [handleFrame, hn, hi]

theorem pyStrip_empty : pyStrip "" = "" := rfl

theorem handlerName_defaulted (ikvs : List (String × Json))
    (h : dictGet ikvs "name" = none ∨ dictGet ikvs "name" = some Json.null ∨
      ∃ s, dictGet ikvs "name" = some (Json.str s) ∧ pyStrip s = "") :
    handlerName ikvs = "world" := by
  rcases h with h | h | ⟨s, hs, hstrip⟩
  · simp [handlerName, h, pyTruthy, pyStr, pyStrip_empty]
  · simp [handlerName, h, pyTruthy, pyStr, pyStrip_empty]
  · by_cases he : s = ""
    · subst he
      simp [handlerName, hs, pyTruthy, pyStr, pyStrip_empty]
    · simp [handlerName, hs, pyTruthy, he, pyStr, hstrip]

theorem handlerName_truthy (ikvs : List (String × Json)) (v : Json)
    (hv : dictGet ikvs "name" = some v) (ht : pyTruthy v = true)
    (hs : pyStrip (pyStr v) ≠ "") :
    handlerName ikvs = pyStrip (pyStr v) := by
  simp [handlerName, hv, ht, hs]

/-! ## Claim theorems -/

/-- C1: for every successful registration response (success status, JSON
object) carrying both `websocket_url` and `token`, the credential pair held
in the shared state immediately after the update is exactly the pair from
the response — neither field can survive from a previous credential. -/
theorem registration_success_replaces_credential_pair
    (st kvs : List (String × Json)) (wu tk : Json)
    (hnd : (kvs.map Prod.fst).Nodup)
    (hwu : dictGet kvs "websocket_url" = some wu)
    (htk : dictGet kvs "token" = some tk) :
    dictGet (registerCycle st (some (true, Json.obj kvs))) "websocket_url" = some wu ∧
    dictGet (registerCycle st (some (true, Json.obj kvs))) "token" = some tk := by
  have hhas : dictHas kvs "websocket_url" = true := dictHas_of_dictGet _ _ _ hwu
  have hcy : registerCycle st (some (true, Json.obj kvs)) = dictUpdate st kvs := by
    simp [registerCycle, hhas]
  rw [hcy]
  exact ⟨dictGet_dictUpdate_mem _ _ _ _ hnd hwu,
         dictGet_dictUpdate_mem _ _ _ _ hnd htk⟩

/-- Witness for C1 at a concrete state and response. -/
theorem registration_success_replaces_credential_pair_witness :
    dictGet (registerCycle [("token", Json.str "old"), ("extra", Json.num 1)]
        (some (true, Json.obj [("websocket_url", Json.str "wss://w"),
                               ("token", Json.str "new")])))
      "websocket_url" = some (Json.str "wss://w") ∧
    dictGet (registerCycle [("token", Json.str "old"), ("extra", Json.num 1)]
        (some (true, Json.obj [("websocket_url", Json.str "wss://w"),
                               ("token", Json.str "new")])))
      "token" = some (Json.str "new") :=
  registration_success_replaces_credential_pair _ _ _ _ (by simp) rfl rfl

/-- C2 counterexample: a registration cycle that fails can still mutate the
state.  The success-status list response
`[["websocket_url", "evil"], "websocket_url"]` passes the membership test,
and `ws_info.update` binds `websocket_url` to `"evil"` before raising
`ValueError` at the second element (the cycle lands in the `except` branch,
i.e. fails), leaving the state changed — the previous credential is not left
untouched. -/
theorem failing_list_response_mutates_state_counterexample :
    listHasWu [Json.arr [Json.str "websocket_url", Json.str "evil"],
               Json.str "websocket_url"] = true ∧
    updateFromListRaises [Json.arr [Json.str "websocket_url", Json.str "evil"],
                          Json.str "websocket_url"] = true ∧
    registerCycle [("token", Json.str "old")]
        (some (true, Json.arr [Json.arr [Json.str "websocket_url", Json.str "evil"],
                               Json.str "websocket_url"]))
      = [("token", Json.str "old"), ("websocket_url", Json.str "evil")] ∧
    [("token", Json.str "old"), ("websocket_url", Json.str "evil")]
      ≠ [("token", Json.str "old")] :=
  ⟨rfl, rfl, rfl, by simp⟩

/-- C2 amended: a cycle failing before the update is reached — a transport
or body-decode exception, a non-success status, an object response missing
`websocket_url`, a list response whose elements never pass the membership
test, or a string, number, boolean or `null` response — leaves the state
exactly as it was; a failing cycle is not in general state-preserving,
because a success-status list response containing `"websocket_url"` as an
element starts `dict.update`, which binds the leading well-formed pairs
before raising. -/
theorem registration_nonupdating_failures_leave_state_unchanged :
    (∀ st : List (String × Json), registerCycle st none = st) ∧
    (∀ (st : List (String × Json)) (data : Json),
      registerCycle st (some (false, data)) = st) ∧
    (∀ (st kvs : List (String × Json)),
      dictHas kvs "websocket_url" = false →
      registerCycle st (some (true, Json.obj kvs)) = st) ∧
    (∀ (st : List (String × Json)) (items : List Json),
      listHasWu items = false →
      registerCycle st (some (true, Json.arr items)) = st) ∧
    (∀ (st : List (String × Json)) (s : String),
      registerCycle st (some (true, Json.str s)) = st) ∧
    (∀ (st : List (String × Json)) (n : Int),
      registerCycle st (some (true, Json.num n)) = st) ∧
    (∀ (st : List (String × Json)) (b : Bool),
      registerCycle st (some (true, Json.bool b)) = st) ∧
    (∀ st : List (String × Json),
      registerCycle st (some (true, Json.null)) = st) := by
  refine ⟨fun st => rfl, fun st data => rfl, fun st kvs h => ?_,
          fun st items h => ?_, fun st s => rfl, fun st n => rfl,
          fun st b => rfl, fun st => rfl⟩
  · simp [registerCycle, h]
  · simp [registerCycle, h]

/-- Witness for the amended C2 on each non-updating failure kind at a
concrete state. -/
theorem registration_nonupdating_failures_leave_state_unchanged_witness :
    registerCycle [("token", Json.str "t")] none = [("token", Json.str "t")] ∧
    registerCycle [("token", Json.str "t")]
      (some (false, Json.obj [("websocket_url", Json.str "w")]))
      = [("token", Json.str "t")] ∧
    registerCycle [("token", Json.str "t")]
      (some (true, Json.obj [("error", Json.str "x")]))
      = [("token", Json.str "t")] ∧
    registerCycle [("token", Json.str "t")]
      (some (true, Json.arr [Json.num 7]))
      = [("token", Json.str "t")] :=
  ⟨registration_nonupdating_failures_leave_state_unchanged.1 _,
   registration_nonupdating_failures_leave_state_unchanged.2.1 _ _,
   registration_nonupdating_failures_leave_state_unchanged.2.2.1 _ _ rfl,
   registration_nonupdating_failures_leave_state_unchanged.2.2.2.1 _ _ rfl⟩

/-- C4: an inbound object frame whose `node` value is not this node's name
(string-equal) produces no outbound frame: the loop just continues, and the
handler lines are never reached. -/
theorem mismatched_target_node_is_silent (n : String) (kvs : List (String × Json))
    (h : dictGet kvs "node" ≠ some (Json.str n)) :
    handleFrame n (Json.obj kvs) = FrameOutcome.silent :=
  handleFrame_not_matched n kvs h

/-- Witness for C4 at a concrete mismatched frame. -/
theorem mismatched_target_node_is_silent_witness :
    handleFrame "ws_hello" (Json.obj [("node", Json.str "other")])
      = FrameOutcome.silent :=
  mismatched_target_node_is_silent "ws_hello" _ (by simp [dictGet])

/-- C5: a matched inbound object frame whose `inputs` is an object (or
missing, defaulting to empty) produces exactly one outbound frame whose
`uuid` is the inbound `uuid` verbatim (JSON `null` when absent) and whose
`outputs` is the handler applied to the inbound `inputs`. -/
theorem matched_invocation_sends_one_correlated_frame (n : String)
    (kvs ikvs : List (String × Json))
    (hn : dictGet kvs "node" = some (Json.str n))
    (hi : (dictGet kvs "inputs").getD (Json.obj []) = Json.obj ikvs) :
    handleFrame n (Json.obj kvs)
      = FrameOutcome.send (Json.obj [("node", Json.str n),
          ("outputs", handlerOutputs ikvs),
          ("uuid", (dictGet kvs "uuid").getD Json.null)]) :=
  handleFrame_matched n kvs ikvs hn hi

/-- Witness for C5 at a concrete matched frame. -/
theorem matched_invocation_sends_one_correlated_frame_witness :
    handleFrame "ws_hello" (Json.obj [("node", Json.str "ws_hello"),
        ("inputs", Json.obj [("name", Json.str "ada")]),
        ("uuid", Json.str "u1")])
      = FrameOutcome.send (Json.obj [("node", Json.str "ws_hello"),
          ("outputs", handlerOutputs [("name", Json.str "ada")]),
          ("uuid", Json.str "u1")]) :=
  matched_invocation_sends_one_correlated_frame "ws_hello" _ _ rfl rfl

/-- C6 counterexample: a frame whose payload is valid JSON but not an object
(here the array `[]`) is not silently discarded: `payload.get` raises an
uncaught `AttributeError`, the outer handler catches it, and the session
leaves the connected state (sleeping 5 before reconnecting). -/
theorem nonobject_payload_drops_connection_counterexample :
    recvStep "ws_hello" "[]" = FrameOutcome.raise ∧
    sessionStep "ws_hello" [] (Phase.connected "u" "t") (Ev.recv "[]")
      = ([], Phase.waiting, [Act.sleep 5]) ∧
    FrameOutcome.raise ≠ FrameOutcome.silent :=
  ⟨rfl, rfl, fun h => FrameOutcome.noConfusion h⟩

/-- C6 amended: frames that fail JSON decoding are silently discarded and
the session stays connected; object frames not addressed to this node are
likewise silently discarded; but a payload that is valid JSON and not an
object raises, dropping the connection. -/
theorem decode_failure_and_mismatch_silently_skipped (n : String) :
    (∀ s : String, Json.parse s = none → recvStep n s = FrameOutcome.silent) ∧
    (∀ (sh : List (String × Json)) (u t : String) (s : String),
      Json.parse s = none →
      sessionStep n sh (Phase.connected u t) (Ev.recv s)
        = (sh, Phase.connected u t, [])) ∧
    (∀ kvs : List (String × Json), dictGet kvs "node" ≠ some (Json.str n) →
      handleFrame n (Json.obj kvs) = FrameOutcome.silent) ∧
    (∀ payload : Json, (∀ kvs, payload ≠ Json.obj kvs) →
      handleFrame n payload = FrameOutcome.raise) := by
  refine ⟨?_, ?_, ?_, ?_⟩
  · intro s h
    simp [recvStep, h]
  · intro sh u t s h
    have hr : recvStep n s = FrameOutcome.silent := by simp [recvStep, h]
    simp [sessionStep, hr]
  · exact handleFrame_not_matched n
  · exact handleFrame_nonobj n

/-- Witness for the amended C6 at concrete frames. -/
theorem decode_failure_and_mismatch_silently_skipped_witness :
    recvStep "ws_hello" "not json" = FrameOutcome.silent ∧
    sessionStep "ws_hello" [] (Phase.connected "u" "t") (Ev.recv "not json")
      = ([], Phase.connected "u" "t", []) ∧
    handleFrame "ws_hello" (Json.obj [("node", Json.str "other")])
      = FrameOutcome.silent ∧
    handleFrame "ws_hello" (Json.arr []) = FrameOutcome.raise :=
  ⟨(decode_failure_and_mismatch_silently_skipped "ws_hello").1 "not json" rfl,
   (decode_failure_and_mismatch_silently_skipped "ws_hello").2.1 [] "u" "t" "not json" rfl,
   (decode_failure_and_mismatch_silently_skipped "ws_hello").2.2.1
     [("node", Json.str "other")] (by simp [dictGet]),
   (decode_failure_and_mismatch_silently_skipped "ws_hello").2.2.2
     (Json.arr []) (fun kvs h => Json.noConfusion h)⟩

/-- C7: a matched frame whose `inputs.name` is missing, JSON `null`, or a
string that strips to empty is answered with the defaulted outputs
`Hello world` / `HELLO WORLD`. -/
theorem defaulted_name_outputs_hello_world (n : String)
    (kvs ikvs : List (String × Json))
    (hn : dictGet kvs "node" = some (Json.str n))
    (hi : (dictGet kvs "inputs").getD (Json.obj []) = Json.obj ikvs)
    (hname : dictGet ikvs "name" = none ∨ dictGet ikvs "name" = some Json.null ∨
      ∃ s, dictGet ikvs "name" = some (Json.str s) ∧ pyStrip s = "") :
    handleFrame n (Json.obj kvs)
      = FrameOutcome.send (Json.obj [("node", Json.str n),
          ("outputs", Json.obj [("greeting", Json.str "Hello world"),
                                ("shout", Json.str "HELLO WORLD")]),
          ("uuid", (dictGet kvs "uuid").getD Json.null)]) := by
  have hw := handlerName_defaulted ikvs hname
  have hout : handlerOutputs ikvs
      = Json.obj [("greeting", Json.str "Hello world"),
                  ("shout", Json.str "HELLO WORLD")] := by
    simp only [handlerOutputs, hw]
    rfl
  rw [handleFrame_matched n kvs ikvs hn hi, hout]

/-- Witness for C7 at a concrete frame with a blank name. -/
theorem defaulted_name_outputs_hello_world_witness :
    handleFrame "ws_hello" (Json.obj [("node", Json.str "ws_hello"),
        ("inputs", Json.obj [("name", Json.str "   ")])])
      = FrameOutcome.send (Json.obj [("node", Json.str "ws_hello"),
          ("outputs", Json.obj [("greeting", Json.str "Hello world"),
                                ("shout", Json.str "HELLO WORLD")]),
          ("uuid", Json.null)]) :=
  defaulted_name_outputs_hello_world "ws_hello" _ _ rfl rfl
    (Or.inr (Or.inr ⟨"   ", rfl, rfl⟩))

/-- C8: the session loop never registers and never writes the shared state
(every step passes the shared dict through unchanged and emits no mutating
action); a socket drop or connect failure emits exactly the fixed 5-unit
backoff and returns control to the loop top, where the next connect attempt
reads the credential freshly from whatever the shared state holds then. -/
theorem session_loop_no_registration_and_fresh_reconnect (n : String) :
    (∀ (sh : List (String × Json)) (ph : Phase) (ev : Ev),
      (sessionStep n sh ph ev).1 = sh ∧
      ∀ a ∈ (sessionStep n sh ph ev).2.2, actMutates a = false) ∧
    (∀ (sh : List (String × Json)) (u t : String),
      sessionStep n sh (Phase.connected u t) Ev.drop
        = (sh, Phase.waiting, [Act.sleep 5])) ∧
    (∀ sh : List (String × Json), credReady sh = true →
      sessionStep n sh Phase.waiting (Ev.conn false)
        = (sh, Phase.waiting,
            [Act.connectTo (pyStr ((dictGet sh "websocket_url").getD Json.null))
               (pyStr ((dictGet sh "token").getD Json.null)), Act.sleep 5])) ∧
    (∀ sh : List (String × Json), credReady sh = true →
      sessionStep n sh Phase.waiting (Ev.conn true)
        = (sh, Phase.connected
              (pyStr ((dictGet sh "websocket_url").getD Json.null))
              (pyStr ((dictGet sh "token").getD Json.null)),
            [Act.connectTo (pyStr ((dictGet sh "websocket_url").getD Json.null))
               (pyStr ((dictGet sh "token").getD Json.null))])) := by
  refine ⟨?_, ?_, ?_, ?_⟩
  · intro sh ph ev
    cases ph with
    | waiting =>
        cases ev with
        | conn ok =>
            cases ok <;> (simp only [sessionStep]; split <;> simp [actMutates])
        | poll => simp only [sessionStep]; split <;> simp [actMutates]
        | recv msg => simp only [sessionStep]; split <;> simp [actMutates]
        | drop => simp only [sessionStep]; split <;> simp [actMutates]
    | connected u t =>
        cases ev with
        | recv msg =>
            cases hr : recvStep n msg <;> simp [sessionStep, hr, actMutates]
        | poll => simp [sessionStep, actMutates]
        | conn ok => simp [sessionStep, actMutates]
        | drop => simp [sessionStep, actMutates]
  · intro sh u t
    rfl
  · intro sh h
    simp [sessionStep, h]
  · intro sh h
    simp [sessionStep, h]

/-- Witness for C8 at a concrete shared state holding a fresh credential. -/
theorem session_loop_no_registration_and_fresh_reconnect_witness :
    (sessionStep "ws_hello" [("websocket_url", Json.str "w"), ("token", Json.str "t")]
        (Phase.connected "u0" "t0") Ev.drop
      = ([("websocket_url", Json.str "w"), ("token", Json.str "t")],
         Phase.waiting, [Act.sleep 5])) ∧
    (sessionStep "ws_hello" [("websocket_url", Json.str "w"), ("token", Json.str "t")]
        Phase.waiting (Ev.conn true)
      = ([("websocket_url", Json.str "w"), ("token", Json.str "t")],
         Phase.connected "w" "t", [Act.connectTo "w" "t"])) ∧
    (∀ a ∈ (sessionStep "ws_hello" [] Phase.waiting Ev.poll).2.2,
      actMutates a = false) :=
  ⟨(session_loop_no_registration_and_fresh_reconnect "ws_hello").2.1 _ "u0" "t0",
   (session_loop_no_registration_and_fresh_reconnect "ws_hello").2.2.2 _ rfl,
   ((session_loop_no_registration_and_fresh_reconnect "ws_hello").1 [] Phase.waiting Ev.poll).2⟩

/-- C9: serializing an OutboundResult to its JSON text frame and parsing the
frame back yields the original source node, outputs and correlation id. -/
theorem outbound_frame_roundtrip (r : OutboundResult) :
    decodeOutboundFrame (renderOutbound r) = some r := by
  rw [decodeOutboundFrame, parse_renderOutbound]
  simp [decodeOutbound_encode]

/-- C10 counterexample: `inputs.name` present as JSON `false` — a value that
is not blank under string coercion (`str(False).strip() = "False"`) — is not
coerced at all: the falsy check replaces it with the default, and the output
is `Hello world`, not `Hello False`. -/
theorem falsy_name_not_coerced_counterexample :
    handleFrame "ws_hello" (Json.obj [("node", Json.str "ws_hello"),
        ("inputs", Json.obj [("name", Json.bool false)]),
        ("uuid", Json.str "u1")])
      = FrameOutcome.send (Json.obj [("node", Json.str "ws_hello"),
          ("outputs", Json.obj [("greeting", Json.str "Hello world"),
                                ("shout", Json.str "HELLO WORLD")]),
          ("uuid", Json.str "u1")]) ∧
    pyStrip (pyStr (Json.bool false)) = "False" ∧
    ("Hello world" : String) ≠ "Hello False" :=
  ⟨rfl, rfl, by decide⟩

/-- C10 amended: only a truthy `inputs.name` (Python truthiness: not `null`,
`false`, `0`, `0.0`, `""`, `[]` or `\x7b\x7d`) is coerced with `str()` and
stripped of Python whitespace; falsy values take the `"world"` default and
are never coerced.  The coerced-and-stripped name is asserted for the values
whose `str()` the model reproduces exactly — strings, integers, booleans —
and, for the `shout` output, when the stripped name is ASCII: containers'
`repr`, float formatting and Unicode uppercasing (such as the eszett mapping
to `SS`) are outside the model's scope. -/
theorem truthy_plain_name_coerced_stripped (n : String)
    (kvs ikvs : List (String × Json)) (v : Json)
    (hn : dictGet kvs "node" = some (Json.str n))
    (hi : (dictGet kvs "inputs").getD (Json.obj []) = Json.obj ikvs)
    (hv : dictGet ikvs "name" = some v)
    (_hx : strCoercionExact v = true)
    (ht : pyTruthy v = true)
    (hs : pyStrip (pyStr v) ≠ "")
    (_ha : (pyStrip (pyStr v)).data.all (fun c => c.toNat ≤ 127) = true) :
    handleFrame n (Json.obj kvs)
      = FrameOutcome.send (Json.obj [("node", Json.str n),
          ("outputs", Json.obj
            [("greeting", Json.str ("Hello " ++ pyStrip (pyStr v))),
             ("shout", Json.str ("HELLO " ++ pyUpper (pyStrip (pyStr v))))]),
          ("uuid", (dictGet kvs "uuid").getD Json.null)]) := by
  have hnm := handlerName_truthy ikvs v hv ht hs
  have hout : handlerOutputs ikvs
      = Json.obj [("greeting", Json.str ("Hello " ++ pyStrip (pyStr v))),
                  ("shout", Json.str ("HELLO " ++ pyUpper (pyStrip (pyStr v))))] := by
    simp only [handlerOutputs, hnm]
  rw [handleFrame_matched n kvs ikvs hn hi, hout]

/-- Witness for the amended C10: `"  ada "` is coerced and stripped to
`"ada"`, and a truthy non-string (`42`) is used via its coercion. -/
theorem truthy_plain_name_coerced_stripped_witness :
    handleFrame "ws_hello" (Json.obj [("node", Json.str "ws_hello"),
        ("inputs", Json.obj [("name", Json.str "  ada ")])])
      = FrameOutcome.send (Json.obj [("node", Json.str "ws_hello"),
          ("outputs", Json.obj [("greeting", Json.str "Hello ada"),
                                ("shout", Json.str "HELLO ADA")]),
          ("uuid", Json.null)]) ∧
    handleFrame "ws_hello" (Json.obj [("node", Json.str "ws_hello"),
        ("inputs", Json.obj [("name", Json.num 42)])])
      = FrameOutcome.send (Json.obj [("node", Json.str "ws_hello"),
          ("outputs", Json.obj [("greeting", Json.str "Hello 42"),
                                ("shout", Json.str "HELLO 42")]),
          ("uuid", Json.null)]) :=
  ⟨truthy_plain_name_coerced_stripped "ws_hello" _ _ (Json.str "  ada ")
     rfl rfl rfl rfl (by decide) (by decide) (by decide),
   truthy_plain_name_coerced_stripped "ws_hello" _ _ (Json.num 42)
     rfl rfl rfl rfl (by decide) (by decide) (by decide)⟩
